import Mathlib

set_option maxRecDepth 100000

/-!
Verification of the aesfs AES implementation.

Shallow embedding of the Python sources:
  src/aesfs/galois_field.py    (gmul, gmul_2, gmul_3, gmul_9, gmul_11, gmul_13, gmul_14)
  src/aesfs/transformations.py (sub_bytes, shift_rows, mix_columns, add_round_key and inverses)
  src/aesfs/key_expansion.py   (rot_word, sub_word, expand_key, get_round_key)
  src/aesfs/aes.py             (AES class: block encrypt/decrypt, PKCS7 pad/unpad)

Python byte values are embedded as Nat with explicit masking (&&& 0xFF) where the
source masks; Python lists become List Nat; the 4x4 state matrix becomes a
16-field structure (field sIJ is state[I][J]); raising ValueError becomes
Except AesError with the error kind of the corresponding raise site.

The module constants.py (SBOX, INV_SBOX, RCON tables) is imported by the
sources but is not part of the source tree; those tables are modelled from the
specification, which fixes them to the standard FIPS-197 reference values.
-/

namespace Aesfs

/-- Error kinds of the distinct validation failures (the spec's error
vocabulary for the ValueError raise sites of the Python code). -/
inductive AesError where
  | invalidKeySize
  | invalidKeyLength
  | invalidBlockLength
  | invalidPlaintextLength
  | invalidCiphertextLength
  | invalidPadding
  | emptyInputUnpad
deriving DecidableEq, Repr

/-! ## galois_field.py -/

/-- One iteration's update of the running operand a in gmul:
hi_bit_set = a & 0x80; a <<= 1; if hi_bit_set: a ^= 0x1B. -/
def gmulStep (a : Nat) : Nat :=
  let hi := a &&& 0x80
  let a1 := a <<< 1
  if hi ≠ 0 then a1 ^^^ 0x1B else a1

/-- Loop of gmul: n remaining iterations, operands a and b, accumulator p.
Per iteration: if b & 1: p ^= a; then the a update (gmulStep); b >>= 1. -/
def gmulLoop : Nat → Nat → Nat → Nat → Nat
  | 0, _, _, p => p
  | n + 1, a, b, p =>
      let p1 := if b &&& 1 ≠ 0 then p ^^^ a else p
      gmulLoop n (gmulStep a) (b >>> 1) p1

/-- gmul(a, b): multiply in GF(2^8), 8 loop iterations, result masked to 8 bits. -/
def gmul (a b : Nat) : Nat := gmulLoop 8 a b 0 &&& 0xFF

/-- gmul_2(x): ((x << 1) ^ (0x1B if x & 0x80 else 0)) & 0xFF. -/
def gmul_2 (x : Nat) : Nat := ((x <<< 1) ^^^ (if x &&& 0x80 ≠ 0 then 0x1B else 0)) &&& 0xFF

/-- gmul_3(x) = gmul_2(x) ^ x. -/
def gmul_3 (x : Nat) : Nat := gmul_2 x ^^^ x

/-- gmul_9(x) = gmul(x, 9). -/
def gmul_9 (x : Nat) : Nat := gmul x 9

/-- gmul_11(x) = gmul(x, 11). -/
def gmul_11 (x : Nat) : Nat := gmul x 11

/-- gmul_13(x) = gmul(x, 13). -/
def gmul_13 (x : Nat) : Nat := gmul x 13

/-- gmul_14(x) = gmul(x, 14). -/
def gmul_14 (x : Nat) : Nat := gmul x 14

/-! ## constants.py (not in the source tree)

Modelled from the spec: constants.py provides two 256-entry permutation tables
SBOX and INV_SBOX and the round-constant sequence RCON; the spec fixes them to
the standard AES (FIPS-197) reference values, INV_SBOX being the inverse
permutation of SBOX and RCON being indexed from 1 during key expansion. -/

/-- Modelled from the spec: the standard FIPS-197 S-box table (constants.py is
missing from the source tree). -/
def SBOX : List Nat := [
  0x63, 0x7c, 0x77, 0x7b, 0xf2, 0x6b, 0x6f, 0xc5,
  0x30, 0x01, 0x67, 0x2b, 0xfe, 0xd7, 0xab, 0x76,
  0xca, 0x82, 0xc9, 0x7d, 0xfa, 0x59, 0x47, 0xf0,
  0xad, 0xd4, 0xa2, 0xaf, 0x9c, 0xa4, 0x72, 0xc0,
  0xb7, 0xfd, 0x93, 0x26, 0x36, 0x3f, 0xf7, 0xcc,
  0x34, 0xa5, 0xe5, 0xf1, 0x71, 0xd8, 0x31, 0x15,
  0x04, 0xc7, 0x23, 0xc3, 0x18, 0x96, 0x05, 0x9a,
  0x07, 0x12, 0x80, 0xe2, 0xeb, 0x27, 0xb2, 0x75,
  0x09, 0x83, 0x2c, 0x1a, 0x1b, 0x6e, 0x5a, 0xa0,
  0x52, 0x3b, 0xd6, 0xb3, 0x29, 0xe3, 0x2f, 0x84,
  0x53, 0xd1, 0x00, 0xed, 0x20, 0xfc, 0xb1, 0x5b,
  0x6a, 0xcb, 0xbe, 0x39, 0x4a, 0x4c, 0x58, 0xcf,
  0xd0, 0xef, 0xaa, 0xfb, 0x43, 0x4d, 0x33, 0x85,
  0x45, 0xf9, 0x02, 0x7f, 0x50, 0x3c, 0x9f, 0xa8,
  0x51, 0xa3, 0x40, 0x8f, 0x92, 0x9d, 0x38, 0xf5,
  0xbc, 0xb6, 0xda, 0x21, 0x10, 0xff, 0xf3, 0xd2,
  0xcd, 0x0c, 0x13, 0xec, 0x5f, 0x97, 0x44, 0x17,
  0xc4, 0xa7, 0x7e, 0x3d, 0x64, 0x5d, 0x19, 0x73,
  0x60, 0x81, 0x4f, 0xdc, 0x22, 0x2a, 0x90, 0x88,
  0x46, 0xee, 0xb8, 0x14, 0xde, 0x5e, 0x0b, 0xdb,
  0xe0, 0x32, 0x3a, 0x0a, 0x49, 0x06, 0x24, 0x5c,
  0xc2, 0xd3, 0xac, 0x62, 0x91, 0x95, 0xe4, 0x79,
  0xe7, 0xc8, 0x37, 0x6d, 0x8d, 0xd5, 0x4e, 0xa9,
  0x6c, 0x56, 0xf4, 0xea, 0x65, 0x7a, 0xae, 0x08,
  0xba, 0x78, 0x25, 0x2e, 0x1c, 0xa6, 0xb4, 0xc6,
  0xe8, 0xdd, 0x74, 0x1f, 0x4b, 0xbd, 0x8b, 0x8a,
  0x70, 0x3e, 0xb5, 0x66, 0x48, 0x03, 0xf6, 0x0e,
  0x61, 0x35, 0x57, 0xb9, 0x86, 0xc1, 0x1d, 0x9e,
  0xe1, 0xf8, 0x98, 0x11, 0x69, 0xd9, 0x8e, 0x94,
  0x9b, 0x1e, 0x87, 0xe9, 0xce, 0x55, 0x28, 0xdf,
  0x8c, 0xa1, 0x89, 0x0d, 0xbf, 0xe6, 0x42, 0x68,
  0x41, 0x99, 0x2d, 0x0f, 0xb0, 0x54, 0xbb, 0x16]

/-- Modelled from the spec: the standard FIPS-197 inverse S-box table
(constants.py is missing from the source tree). -/
def INV_SBOX : List Nat := [
  0x52, 0x09, 0x6a, 0xd5, 0x30, 0x36, 0xa5, 0x38,
  0xbf, 0x40, 0xa3, 0x9e, 0x81, 0xf3, 0xd7, 0xfb,
  0x7c, 0xe3, 0x39, 0x82, 0x9b, 0x2f, 0xff, 0x87,
  0x34, 0x8e, 0x43, 0x44, 0xc4, 0xde, 0xe9, 0xcb,
  0x54, 0x7b, 0x94, 0x32, 0xa6, 0xc2, 0x23, 0x3d,
  0xee, 0x4c, 0x95, 0x0b, 0x42, 0xfa, 0xc3, 0x4e,
  0x08, 0x2e, 0xa1, 0x66, 0x28, 0xd9, 0x24, 0xb2,
  0x76, 0x5b, 0xa2, 0x49, 0x6d, 0x8b, 0xd1, 0x25,
  0x72, 0xf8, 0xf6, 0x64, 0x86, 0x68, 0x98, 0x16,
  0xd4, 0xa4, 0x5c, 0xcc, 0x5d, 0x65, 0xb6, 0x92,
  0x6c, 0x70, 0x48, 0x50, 0xfd, 0xed, 0xb9, 0xda,
  0x5e, 0x15, 0x46, 0x57, 0xa7, 0x8d, 0x9d, 0x84,
  0x90, 0xd8, 0xab, 0x00, 0x8c, 0xbc, 0xd3, 0x0a,
  0xf7, 0xe4, 0x58, 0x05, 0xb8, 0xb3, 0x45, 0x06,
  0xd0, 0x2c, 0x1e, 0x8f, 0xca, 0x3f, 0x0f, 0x02,
  0xc1, 0xaf, 0xbd, 0x03, 0x01, 0x13, 0x8a, 0x6b,
  0x3a, 0x91, 0x11, 0x41, 0x4f, 0x67, 0xdc, 0xea,
  0x97, 0xf2, 0xcf, 0xce, 0xf0, 0xb4, 0xe6, 0x73,
  0x96, 0xac, 0x74, 0x22, 0xe7, 0xad, 0x35, 0x85,
  0xe2, 0xf9, 0x37, 0xe8, 0x1c, 0x75, 0xdf, 0x6e,
  0x47, 0xf1, 0x1a, 0x71, 0x1d, 0x29, 0xc5, 0x89,
  0x6f, 0xb7, 0x62, 0x0e, 0xaa, 0x18, 0xbe, 0x1b,
  0xfc, 0x56, 0x3e, 0x4b, 0xc6, 0xd2, 0x79, 0x20,
  0x9a, 0xdb, 0xc0, 0xfe, 0x78, 0xcd, 0x5a, 0xf4,
  0x1f, 0xdd, 0xa8, 0x33, 0x88, 0x07, 0xc7, 0x31,
  0xb1, 0x12, 0x10, 0x59, 0x27, 0x80, 0xec, 0x5f,
  0x60, 0x51, 0x7f, 0xa9, 0x19, 0xb5, 0x4a, 0x0d,
  0x2d, 0xe5, 0x7a, 0x9f, 0x93, 0xc9, 0x9c, 0xef,
  0xa0, 0xe0, 0x3b, 0x4d, 0xae, 0x2a, 0xf5, 0xb0,
  0xc8, 0xeb, 0xbb, 0x3c, 0x83, 0x53, 0x99, 0x61,
  0x17, 0x2b, 0x04, 0x7e, 0xba, 0x77, 0xd6, 0x26,
  0xe1, 0x69, 0x14, 0x63, 0x55, 0x21, 0x0c, 0x7d]

/-- Modelled from the spec: the round-constant sequence, indexed from 1 during
key expansion (index 0 is never read; 0x8d is the conventional filler). -/
def RCON : List Nat := [0x8d, 0x01, 0x02, 0x04, 0x08, 0x10, 0x20, 0x40, 0x80, 0x1b, 0x36]

/-- Python list indexing SBOX[x] (indices used by the code are always in range). -/
def sboxAt (x : Nat) : Nat := SBOX.getD x 0

/-- Python list indexing INV_SBOX[x]. -/
def invSboxAt (x : Nat) : Nat := INV_SBOX.getD x 0

/-! ## The 4x4 state (aes.py _bytes_to_state / _state_to_bytes)

Field sIJ is the Python state[I][J]; byte i+4j of a block maps to state[i][j]
(column-major). -/

/-- The 4x4 state matrix of one block; field sIJ is state[I][J]. -/
structure State where
  s00 : Nat
  s01 : Nat
  s02 : Nat
  s03 : Nat
  s10 : Nat
  s11 : Nat
  s12 : Nat
  s13 : Nat
  s20 : Nat
  s21 : Nat
  s22 : Nat
  s23 : Nat
  s30 : Nat
  s31 : Nat
  s32 : Nat
  s33 : Nat
deriving DecidableEq, Repr

/-- All sixteen state entries are bytes (< 256). -/
def State.WF (s : State) : Prop :=
  s.s00 < 256 ∧ s.s01 < 256 ∧ s.s02 < 256 ∧ s.s03 < 256 ∧
  s.s10 < 256 ∧ s.s11 < 256 ∧ s.s12 < 256 ∧ s.s13 < 256 ∧
  s.s20 < 256 ∧ s.s21 < 256 ∧ s.s22 < 256 ∧ s.s23 < 256 ∧
  s.s30 < 256 ∧ s.s31 < 256 ∧ s.s32 < 256 ∧ s.s33 < 256

instance (s : State) : Decidable s.WF := by unfold State.WF; infer_instance

/-! ## transformations.py -/

/-- SubBytes: state[i][j] = SBOX[state[i][j]] for all i, j. -/
def sub_bytes (s : State) : State :=
  ⟨sboxAt s.s00, sboxAt s.s01, sboxAt s.s02, sboxAt s.s03,
   sboxAt s.s10, sboxAt s.s11, sboxAt s.s12, sboxAt s.s13,
   sboxAt s.s20, sboxAt s.s21, sboxAt s.s22, sboxAt s.s23,
   sboxAt s.s30, sboxAt s.s31, sboxAt s.s32, sboxAt s.s33⟩

/-- InvSubBytes: state[i][j] = INV_SBOX[state[i][j]] for all i, j. -/
def inv_sub_bytes (s : State) : State :=
  ⟨invSboxAt s.s00, invSboxAt s.s01, invSboxAt s.s02, invSboxAt s.s03,
   invSboxAt s.s10, invSboxAt s.s11, invSboxAt s.s12, invSboxAt s.s13,
   invSboxAt s.s20, invSboxAt s.s21, invSboxAt s.s22, invSboxAt s.s23,
   invSboxAt s.s30, invSboxAt s.s31, invSboxAt s.s32, invSboxAt s.s33⟩

/-- ShiftRows: row r is rotated left by r (row 0 unchanged). -/
def shift_rows (s : State) : State :=
  ⟨s.s00, s.s01, s.s02, s.s03,
   s.s11, s.s12, s.s13, s.s10,
   s.s22, s.s23, s.s20, s.s21,
   s.s33, s.s30, s.s31, s.s32⟩

/-- InvShiftRows: row r is rotated right by r (row 0 unchanged). -/
def inv_shift_rows (s : State) : State :=
  ⟨s.s00, s.s01, s.s02, s.s03,
   s.s13, s.s10, s.s11, s.s12,
   s.s22, s.s23, s.s20, s.s21,
   s.s31, s.s32, s.s33, s.s30⟩

/-- MixColumns: each column (c0,c1,c2,c3) becomes
(2c0^3c1^c2^c3, c0^2c1^3c2^c3, c0^c1^2c2^3c3, 3c0^c1^c2^2c3) in GF(2^8). -/
def mix_columns (s : State) : State :=
  ⟨gmul_2 s.s00 ^^^ gmul_3 s.s10 ^^^ s.s20 ^^^ s.s30,
   gmul_2 s.s01 ^^^ gmul_3 s.s11 ^^^ s.s21 ^^^ s.s31,
   gmul_2 s.s02 ^^^ gmul_3 s.s12 ^^^ s.s22 ^^^ s.s32,
   gmul_2 s.s03 ^^^ gmul_3 s.s13 ^^^ s.s23 ^^^ s.s33,
   s.s00 ^^^ gmul_2 s.s10 ^^^ gmul_3 s.s20 ^^^ s.s30,
   s.s01 ^^^ gmul_2 s.s11 ^^^ gmul_3 s.s21 ^^^ s.s31,
   s.s02 ^^^ gmul_2 s.s12 ^^^ gmul_3 s.s22 ^^^ s.s32,
   s.s03 ^^^ gmul_2 s.s13 ^^^ gmul_3 s.s23 ^^^ s.s33,
   s.s00 ^^^ s.s10 ^^^ gmul_2 s.s20 ^^^ gmul_3 s.s30,
   s.s01 ^^^ s.s11 ^^^ gmul_2 s.s21 ^^^ gmul_3 s.s31,
   s.s02 ^^^ s.s12 ^^^ gmul_2 s.s22 ^^^ gmul_3 s.s32,
   s.s03 ^^^ s.s13 ^^^ gmul_2 s.s23 ^^^ gmul_3 s.s33,
   gmul_3 s.s00 ^^^ s.s10 ^^^ s.s20 ^^^ gmul_2 s.s30,
   gmul_3 s.s01 ^^^ s.s11 ^^^ s.s21 ^^^ gmul_2 s.s31,
   gmul_3 s.s02 ^^^ s.s12 ^^^ s.s22 ^^^ gmul_2 s.s32,
   gmul_3 s.s03 ^^^ s.s13 ^^^ s.s23 ^^^ gmul_2 s.s33⟩

/-- InvMixColumns: each column (c0,c1,c2,c3) becomes
(14c0^11c1^13c2^9c3, 9c0^14c1^11c2^13c3, 13c0^9c1^14c2^11c3, 11c0^13c1^9c2^14c3). -/
def inv_mix_columns (s : State) : State :=
  ⟨gmul_14 s.s00 ^^^ gmul_11 s.s10 ^^^ gmul_13 s.s20 ^^^ gmul_9 s.s30,
   gmul_14 s.s01 ^^^ gmul_11 s.s11 ^^^ gmul_13 s.s21 ^^^ gmul_9 s.s31,
   gmul_14 s.s02 ^^^ gmul_11 s.s12 ^^^ gmul_13 s.s22 ^^^ gmul_9 s.s32,
   gmul_14 s.s03 ^^^ gmul_11 s.s13 ^^^ gmul_13 s.s23 ^^^ gmul_9 s.s33,
   gmul_9 s.s00 ^^^ gmul_14 s.s10 ^^^ gmul_11 s.s20 ^^^ gmul_13 s.s30,
   gmul_9 s.s01 ^^^ gmul_14 s.s11 ^^^ gmul_11 s.s21 ^^^ gmul_13 s.s31,
   gmul_9 s.s02 ^^^ gmul_14 s.s12 ^^^ gmul_11 s.s22 ^^^ gmul_13 s.s32,
   gmul_9 s.s03 ^^^ gmul_14 s.s13 ^^^ gmul_11 s.s23 ^^^ gmul_13 s.s33,
   gmul_13 s.s00 ^^^ gmul_9 s.s10 ^^^ gmul_14 s.s20 ^^^ gmul_11 s.s30,
   gmul_13 s.s01 ^^^ gmul_9 s.s11 ^^^ gmul_14 s.s21 ^^^ gmul_11 s.s31,
   gmul_13 s.s02 ^^^ gmul_9 s.s12 ^^^ gmul_14 s.s22 ^^^ gmul_11 s.s32,
   gmul_13 s.s03 ^^^ gmul_9 s.s13 ^^^ gmul_14 s.s23 ^^^ gmul_11 s.s33,
   gmul_11 s.s00 ^^^ gmul_13 s.s10 ^^^ gmul_9 s.s20 ^^^ gmul_14 s.s30,
   gmul_11 s.s01 ^^^ gmul_13 s.s11 ^^^ gmul_9 s.s21 ^^^ gmul_14 s.s31,
   gmul_11 s.s02 ^^^ gmul_13 s.s12 ^^^ gmul_9 s.s22 ^^^ gmul_14 s.s32,
   gmul_11 s.s03 ^^^ gmul_13 s.s13 ^^^ gmul_9 s.s23 ^^^ gmul_14 s.s33⟩

/-- AddRoundKey: state[i][j] ^= round_key[i + 4*j]. -/
def add_round_key (s : State) (round_key : List Nat) : State :=
  ⟨s.s00 ^^^ round_key.getD 0 0, s.s01 ^^^ round_key.getD 4 0,
   s.s02 ^^^ round_key.getD 8 0, s.s03 ^^^ round_key.getD 12 0,
   s.s10 ^^^ round_key.getD 1 0, s.s11 ^^^ round_key.getD 5 0,
   s.s12 ^^^ round_key.getD 9 0, s.s13 ^^^ round_key.getD 13 0,
   s.s20 ^^^ round_key.getD 2 0, s.s21 ^^^ round_key.getD 6 0,
   s.s22 ^^^ round_key.getD 10 0, s.s23 ^^^ round_key.getD 14 0,
   s.s30 ^^^ round_key.getD 3 0, s.s31 ^^^ round_key.getD 7 0,
   s.s32 ^^^ round_key.getD 11 0, s.s33 ^^^ round_key.getD 15 0⟩

/-! ## key_expansion.py -/

/-- rot_word: word[1:] + word[:1]. -/
def rot_word (word : List Nat) : List Nat := word.drop 1 ++ word.take 1

/-- sub_word: S-box applied to each byte of the word. -/
def sub_word (word : List Nat) : List Nat := word.map sboxAt

/-- Number of rounds for a key size: {128: 10, 192: 12, 256: 14}. -/
def nrOf (key_size : Nat) : Nat :=
  if key_size = 128 then 10 else if key_size = 192 then 12 else 14

/-- Body of the key-expansion loop at word index i: reads the previous word
(expanded_key[(i-1)*4 : i*4]), applies the RotWord/SubWord/Rcon schedule rules,
XORs with the word nk positions earlier and appends the 4 new bytes. -/
def expandStep (nk : Nat) (i : Nat) (ek : List Nat) : List Nat :=
  let temp := (ek.drop ((i - 1) * 4)).take 4
  let temp2 :=
    if i % nk = 0 then
      let t := sub_word (rot_word temp)
      t.set 0 (t.getD 0 0 ^^^ RCON.getD (i / nk) 0)
    else if 6 < nk ∧ i % nk = 4 then
      sub_word temp
    else temp
  let prev_word := (ek.drop ((i - nk) * 4)).take 4
  let new_word := (List.range 4).map (fun j => prev_word.getD j 0 ^^^ temp2.getD j 0)
  ek ++ new_word

/-- The key-expansion loop: for word index i from nk to total_words - 1 run
expandStep (steps counts the remaining indices). -/
def expandLoop (nk : Nat) : Nat → Nat → List Nat → List Nat
  | 0, _, ek => ek
  | steps + 1, i, ek => expandLoop nk steps (i + 1) (expandStep nk i ek)

/-- expand_key(key, key_size): validate key size and key length, then run the
expansion loop from word index nk up to 4*(nr+1) - 1. -/
def expand_key (key : List Nat) (key_size : Nat) : Except AesError (List Nat) :=
  if ¬(key_size = 128 ∨ key_size = 192 ∨ key_size = 256) then
    .error .invalidKeySize
  else if key.length ≠ key_size / 8 then
    .error .invalidKeyLength
  else
    let nk := key.length / 4
    let nr := nrOf key_size
    let total_words := 4 * (nr + 1)
    .ok (expandLoop nk (total_words - nk) nk key)

/-- Python list slice l[a:b] with step 1: negative bounds count from the end,
then both bounds are clamped to [0, len(l)]. -/
def pySlice (l : List Nat) (a b : Int) : List Nat :=
  (l.take (if b < 0 then max ((l.length : Int) + b) 0 else min b (l.length : Int)).toNat).drop
    (if a < 0 then max ((l.length : Int) + a) 0 else min a (l.length : Int)).toNat

/-- get_round_key(expanded_key, round_num) = expanded_key[start : start + 16]
with start = round_num * 16 (a Python slice, hence no bounds check). -/
def get_round_key (expanded_key : List Nat) (round_num : Int) : List Nat :=
  pySlice expanded_key (round_num * 16) (round_num * 16 + 16)

/-! ## aes.py -/

/-- The AES cipher object: key size in bits, round count nr, expanded key. -/
structure AES where
  key_size : Nat
  nr : Nat
  expanded_key : List Nat
deriving DecidableEq, Repr

/-- AES.__init__ validations and setup: key_size must be 128/192/256
(InvalidKeySize), the key must be key_size/8 bytes (InvalidKeyLength);
nr is {128: 10, 192: 12, 256: 14}[key_size]; the key is expanded. -/
def AES.init (key : List Nat) (key_size : Nat) : Except AesError AES :=
  if ¬(key_size = 128 ∨ key_size = 192 ∨ key_size = 256) then
    .error .invalidKeySize
  else if key.length ≠ key_size / 8 then
    .error .invalidKeyLength
  else
    match expand_key key key_size with
    | .error e => .error e
    | .ok ek => .ok ⟨key_size, nrOf key_size, ek⟩

/-- _bytes_to_state: requires exactly 16 bytes (InvalidBlockLength otherwise);
state[i][j] = block[i + 4*j]. -/
def bytes_to_state (block : List Nat) : Except AesError State :=
  if block.length = 16 then
    .ok ⟨block.getD 0 0, block.getD 4 0, block.getD 8 0, block.getD 12 0,
         block.getD 1 0, block.getD 5 0, block.getD 9 0, block.getD 13 0,
         block.getD 2 0, block.getD 6 0, block.getD 10 0, block.getD 14 0,
         block.getD 3 0, block.getD 7 0, block.getD 11 0, block.getD 15 0⟩
  else
    .error .invalidBlockLength

/-- _state_to_bytes: block byte i + 4*j is state[i][j] (j outer, i inner). -/
def state_to_bytes (s : State) : List Nat :=
  [s.s00, s.s10, s.s20, s.s30, s.s01, s.s11, s.s21, s.s31,
   s.s02, s.s12, s.s22, s.s32, s.s03, s.s13, s.s23, s.s33]

/-- One main encryption round: SubBytes, ShiftRows, MixColumns, AddRoundKey. -/
def encRound (ek : List Nat) (s : State) (round_num : Nat) : State :=
  add_round_key (mix_columns (shift_rows (sub_bytes s))) (get_round_key ek round_num)

/-- encrypt_block: AddRoundKey(RK 0); rounds 1..nr-1 (encRound); final round
SubBytes, ShiftRows, AddRoundKey(RK nr) without MixColumns. -/
def encrypt_block (c : AES) (plaintext : List Nat) : Except AesError (List Nat) :=
  match bytes_to_state plaintext with
  | .error e => .error e
  | .ok s0 =>
      let s1 := add_round_key s0 (get_round_key c.expanded_key 0)
      let s2 := (List.range' 1 (c.nr - 1)).foldl (encRound c.expanded_key) s1
      let s3 := add_round_key (shift_rows (sub_bytes s2)) (get_round_key c.expanded_key c.nr)
      .ok (state_to_bytes s3)

/-- One main decryption round: InvShiftRows, InvSubBytes, AddRoundKey,
InvMixColumns. -/
def decRound (ek : List Nat) (s : State) (round_num : Nat) : State :=
  inv_mix_columns (add_round_key (inv_sub_bytes (inv_shift_rows s)) (get_round_key ek round_num))

/-- decrypt_block: AddRoundKey(RK nr); rounds nr-1 down to 1 (decRound, the
Python range(nr-1, 0, -1)); final InvShiftRows, InvSubBytes, AddRoundKey(RK 0). -/
def decrypt_block (c : AES) (ciphertext : List Nat) : Except AesError (List Nat) :=
  match bytes_to_state ciphertext with
  | .error e => .error e
  | .ok s0 =>
      let s1 := add_round_key s0 (get_round_key c.expanded_key c.nr)
      let s2 := ((List.range' 1 (c.nr - 1)).reverse).foldl (decRound c.expanded_key) s1
      let s3 := add_round_key (inv_sub_bytes (inv_shift_rows s2)) (get_round_key c.expanded_key 0)
      .ok (state_to_bytes s3)

/-- _pad: append n = 16 - len(data) % 16 bytes, each of value n (PKCS7). -/
def pad (data : List Nat) : List Nat :=
  let padding_length := 16 - data.length % 16
  data ++ List.replicate padding_length padding_length

/-- _unpad: empty input fails (EmptyInputUnpad); read the last byte as n;
n == 0, n > 16, len(data) < n or any of the last n bytes differing from n
fails (InvalidPadding); otherwise strip the last n bytes (data[:-n]). -/
def unpad (data : List Nat) : Except AesError (List Nat) :=
  if data.length = 0 then
    .error .emptyInputUnpad
  else
    let padding_length := data.getD (data.length - 1) 0
    if 16 < padding_length ∨ padding_length = 0 then
      .error .invalidPadding
    else if data.length < padding_length then
      .error .invalidPadding
    else if (List.range padding_length).all
        (fun i => data.getD (data.length - 1 - i) 0 == padding_length) then
      .ok (data.take (data.length - padding_length))
    else
      .error .invalidPadding

/-! ## Spec-side round pipeline (section 4.5 of the spec, for the refinement
claim about the stage sequence)

These definitions transcribe the spec's stage lists by primitive recursion on
the round counter, independently of the foldl-over-range shape of the source. -/

/-- Stages of spec encryption rounds 1..m, applied in increasing round order:
round r is SubBytes; ShiftRows; MixColumns; AddRoundKey(RK r). -/
def specEncRounds (ek : List Nat) : Nat → State → State
  | 0, s => s
  | m + 1, s =>
      add_round_key
        (mix_columns (shift_rows (sub_bytes (specEncRounds ek m s))))
        (get_round_key ek (m + 1))

/-- Spec encryption pipeline: AddRoundKey(RK 0); rounds 1..nr-1; final round
SubBytes; ShiftRows; AddRoundKey(RK nr) with MixColumns omitted. -/
def specEncryptStages (ek : List Nat) (nr : Nat) (s : State) : State :=
  let s1 := add_round_key s (get_round_key ek 0)
  let s2 := specEncRounds ek (nr - 1) s1
  add_round_key (shift_rows (sub_bytes s2)) (get_round_key ek nr)

/-- Stages of spec decryption rounds m down to 1, applied in decreasing round
order: round r is InvShiftRows; InvSubBytes; AddRoundKey(RK r); InvMixColumns. -/
def specDecRounds (ek : List Nat) : Nat → State → State
  | 0, s => s
  | m + 1, s =>
      specDecRounds ek m
        (inv_mix_columns
          (add_round_key (inv_sub_bytes (inv_shift_rows s)) (get_round_key ek (m + 1))))

/-- Spec decryption pipeline: AddRoundKey(RK nr); rounds nr-1 down to 1; final
InvShiftRows; InvSubBytes; AddRoundKey(RK 0). -/
def specDecryptStages (ek : List Nat) (nr : Nat) (s : State) : State :=
  let s1 := add_round_key s (get_round_key ek nr)
  let s2 := specDecRounds ek (nr - 1) s1
  add_round_key (inv_sub_bytes (inv_shift_rows s2)) (get_round_key ek 0)

/-! ## Bitwise helper lemmas -/

theorem xor_left_comm (a b c : Nat) : a ^^^ (b ^^^ c) = b ^^^ (a ^^^ c) := by
  rw [← Nat.xor_assoc, Nat.xor_comm a b, Nat.xor_assoc]

theorem shiftLeft_xor_distrib (x y i : Nat) : (x ^^^ y) <<< i = (x <<< i) ^^^ (y <<< i) := by
  apply Nat.eq_of_testBit_eq
  intro j
  simp only [Nat.testBit_shiftLeft, Nat.testBit_xor]
  cases Decidable.em (i ≤ j) with
  | inl h => simp [h]
  | inr h => simp [h]

theorem and_xor_distrib_right_nat (x y c : Nat) :
    (x ^^^ y) &&& c = (x &&& c) ^^^ (y &&& c) := by
  apply Nat.eq_of_testBit_eq
  intro j
  simp only [Nat.testBit_xor, Nat.testBit_and]
  cases x.testBit j <;> cases y.testBit j <;> cases c.testBit j <;> rfl

theorem and128_cases (x : Nat) : x &&& 128 = 0 ∨ x &&& 128 = 128 := by
  have h := Nat.and_two_pow x 7
  norm_num at h
  cases h7 : x.testBit 7 <;> simp [h7] at h <;> omega

theorem xor_lt_256 {x y : Nat} (hx : x < 256) (hy : y < 256) : x ^^^ y < 256 := by
  have h : (256 : Nat) = 2 ^ 8 := by norm_num
  rw [h] at hx hy ⊢
  exact Nat.xor_lt_two_pow hx hy

theorem and255_lt (x : Nat) : x &&& 255 < 256 :=
  Nat.lt_succ_of_le (Nat.and_le_right)

/-! ## Linearity of gmul in its first operand -/

theorem gmulStep_xor (x y : Nat) : gmulStep (x ^^^ y) = gmulStep x ^^^ gmulStep y := by
  unfold gmulStep
  have hxy : (x ^^^ y) &&& 0x80 = (x &&& 0x80) ^^^ (y &&& 0x80) :=
    and_xor_distrib_right_nat x y 0x80
  have hsh : (x ^^^ y) <<< 1 = (x <<< 1) ^^^ (y <<< 1) := shiftLeft_xor_distrib x y 1
  rcases and128_cases x with hx | hx <;> rcases and128_cases y with hy | hy <;>
    simp only [hx, hy, Nat.xor_self, Nat.xor_zero, Nat.zero_xor] at hxy <;>
    simp only [hxy, hx, hy, hsh] <;> norm_num
  · rw [Nat.xor_assoc]
  · rw [Nat.xor_assoc, Nat.xor_comm (y <<< 1) 27, ← Nat.xor_assoc]
  · rw [Nat.xor_assoc, xor_left_comm 27 (y <<< 1) 27, Nat.xor_self, Nat.xor_zero]

theorem gmulLoop_xor (n : Nat) :
    ∀ b x y p q, gmulLoop n (x ^^^ y) b (p ^^^ q) =
      gmulLoop n x b p ^^^ gmulLoop n y b q := by
  induction n with
  | zero => intro b x y p q; rfl
  | succ m ih =>
      intro b x y p q
      simp only [gmulLoop, gmulStep_xor]
      cases Decidable.em (b &&& 1 ≠ 0) with
      | inl h =>
          simp only [if_pos h]
          rw [show p ^^^ q ^^^ (x ^^^ y) = (p ^^^ x) ^^^ (q ^^^ y) by
            rw [Nat.xor_assoc, Nat.xor_assoc, xor_left_comm q x y]]
          exact ih (b >>> 1) (gmulStep x) (gmulStep y) (p ^^^ x) (q ^^^ y)
      | inr h =>
          simp only [if_neg h]
          exact ih (b >>> 1) (gmulStep x) (gmulStep y) p q

theorem gmul_xor_left (x y b : Nat) : gmul (x ^^^ y) b = gmul x b ^^^ gmul y b := by
  unfold gmul
  rw [show (0 : Nat) = 0 ^^^ 0 from rfl, gmulLoop_xor 8 b x y 0 0]
  exact and_xor_distrib_right_nat _ _ 255

theorem gmul_9_xor (x y : Nat) : gmul_9 (x ^^^ y) = gmul_9 x ^^^ gmul_9 y :=
  gmul_xor_left x y 9

theorem gmul_11_xor (x y : Nat) : gmul_11 (x ^^^ y) = gmul_11 x ^^^ gmul_11 y :=
  gmul_xor_left x y 11

theorem gmul_13_xor (x y : Nat) : gmul_13 (x ^^^ y) = gmul_13 x ^^^ gmul_13 y :=
  gmul_xor_left x y 13

theorem gmul_14_xor (x y : Nat) : gmul_14 (x ^^^ y) = gmul_14 x ^^^ gmul_14 y :=
  gmul_xor_left x y 14

/-! ## Byte bounds -/

/-- All elements of a list are bytes. -/
def bytesLt (l : List Nat) : Prop := ∀ x ∈ l, x < 256

instance (l : List Nat) : Decidable (bytesLt l) := List.decidableBAll _ l

theorem getD_lt {l : List Nat} (h : bytesLt l) (n : Nat) : l.getD n 0 < 256 := by
  cases Nat.lt_or_ge n l.length with
  | inl hn => rw [List.getD_eq_getElem l 0 hn]; exact h _ (List.getElem_mem hn)
  | inr hn => rw [List.getD_eq_default l 0 hn]; norm_num

theorem gmul_2_lt (x : Nat) : gmul_2 x < 256 := and255_lt _

theorem gmul_3_lt {x : Nat} (hx : x < 256) : gmul_3 x < 256 :=
  xor_lt_256 (gmul_2_lt x) hx

theorem gmul_lt (x b : Nat) : gmul x b < 256 := and255_lt _

theorem sbox_length : SBOX.length = 256 := rfl

theorem inv_sbox_length : INV_SBOX.length = 256 := rfl

theorem sboxAt_lt (x : Nat) : sboxAt x < 256 := by
  cases Nat.lt_or_ge x 256 with
  | inl hx => exact (by decide : ∀ y < 256, sboxAt y < 256) x hx
  | inr hx =>
      unfold sboxAt
      rw [List.getD_eq_default _ 0 (le_trans (le_of_eq sbox_length) hx)]
      norm_num

theorem invSboxAt_lt (x : Nat) : invSboxAt x < 256 := by
  cases Nat.lt_or_ge x 256 with
  | inl hx => exact (by decide : ∀ y < 256, invSboxAt y < 256) x hx
  | inr hx =>
      unfold invSboxAt
      rw [List.getD_eq_default _ 0 (le_trans (le_of_eq inv_sbox_length) hx)]
      norm_num

theorem invSbox_sbox {x : Nat} (hx : x < 256) : invSboxAt (sboxAt x) = x :=
  (by decide : ∀ y < 256, invSboxAt (sboxAt y) = y) x hx

/-! ## The inverse-MixColumns coefficient identities

Row i of the inverse matrix times column j of the forward matrix is 1 when
i = j and 0 otherwise; grouped per input byte these are four identities over a
single byte, checked by evaluation over all 256 values. -/

theorem coefA : ∀ x < 256,
    gmul_14 (gmul_2 x) ^^^ gmul_11 x ^^^ gmul_13 x ^^^ gmul_9 (gmul_3 x) = x := by decide

theorem coefB : ∀ x < 256,
    gmul_14 (gmul_3 x) ^^^ gmul_11 (gmul_2 x) ^^^ gmul_13 x ^^^ gmul_9 x = 0 := by decide

theorem coefC : ∀ x < 256,
    gmul_14 x ^^^ gmul_11 (gmul_3 x) ^^^ gmul_13 (gmul_2 x) ^^^ gmul_9 x = 0 := by decide

theorem coefD : ∀ x < 256,
    gmul_14 x ^^^ gmul_11 x ^^^ gmul_13 (gmul_3 x) ^^^ gmul_9 (gmul_2 x) = 0 := by decide

instance : Std.Associative (α := Nat) (· ^^^ ·) := ⟨Nat.xor_assoc⟩

instance : Std.Commutative (α := Nat) (· ^^^ ·) := ⟨Nat.xor_comm⟩

theorem invCol0 {a b c d : Nat} (ha : a < 256) (hb : b < 256) (hc : c < 256) (hd : d < 256) :
    gmul_14 (gmul_2 a ^^^ gmul_3 b ^^^ c ^^^ d) ^^^
      gmul_11 (a ^^^ gmul_2 b ^^^ gmul_3 c ^^^ d) ^^^
      gmul_13 (a ^^^ b ^^^ gmul_2 c ^^^ gmul_3 d) ^^^
      gmul_9 (gmul_3 a ^^^ b ^^^ c ^^^ gmul_2 d) = a := by
  simp only [gmul_14_xor, gmul_11_xor, gmul_13_xor, gmul_9_xor]
  calc _ = (gmul_14 (gmul_2 a) ^^^ gmul_11 a ^^^ gmul_13 a ^^^ gmul_9 (gmul_3 a)) ^^^
        ((gmul_14 (gmul_3 b) ^^^ gmul_11 (gmul_2 b) ^^^ gmul_13 b ^^^ gmul_9 b) ^^^
        ((gmul_14 c ^^^ gmul_11 (gmul_3 c) ^^^ gmul_13 (gmul_2 c) ^^^ gmul_9 c) ^^^
        (gmul_14 d ^^^ gmul_11 d ^^^ gmul_13 (gmul_3 d) ^^^ gmul_9 (gmul_2 d)))) := by ac_rfl
    _ = a := by
        rw [coefA a ha, coefB b hb, coefC c hc, coefD d hd]
        simp

theorem invCol1 {a b c d : Nat} (ha : a < 256) (hb : b < 256) (hc : c < 256) (hd : d < 256) :
    gmul_9 (gmul_2 a ^^^ gmul_3 b ^^^ c ^^^ d) ^^^
      gmul_14 (a ^^^ gmul_2 b ^^^ gmul_3 c ^^^ d) ^^^
      gmul_11 (a ^^^ b ^^^ gmul_2 c ^^^ gmul_3 d) ^^^
      gmul_13 (gmul_3 a ^^^ b ^^^ c ^^^ gmul_2 d) = b := by
  simp only [gmul_14_xor, gmul_11_xor, gmul_13_xor, gmul_9_xor]
  calc _ = (gmul_14 a ^^^ gmul_11 a ^^^ gmul_13 (gmul_3 a) ^^^ gmul_9 (gmul_2 a)) ^^^
        ((gmul_14 (gmul_2 b) ^^^ gmul_11 b ^^^ gmul_13 b ^^^ gmul_9 (gmul_3 b)) ^^^
        ((gmul_14 (gmul_3 c) ^^^ gmul_11 (gmul_2 c) ^^^ gmul_13 c ^^^ gmul_9 c) ^^^
        (gmul_14 d ^^^ gmul_11 (gmul_3 d) ^^^ gmul_13 (gmul_2 d) ^^^ gmul_9 d))) := by ac_rfl
    _ = b := by
        rw [coefD a ha, coefA b hb, coefB c hc, coefC d hd]
        simp

theorem invCol2 {a b c d : Nat} (ha : a < 256) (hb : b < 256) (hc : c < 256) (hd : d < 256) :
    gmul_13 (gmul_2 a ^^^ gmul_3 b ^^^ c ^^^ d) ^^^
      gmul_9 (a ^^^ gmul_2 b ^^^ gmul_3 c ^^^ d) ^^^
      gmul_14 (a ^^^ b ^^^ gmul_2 c ^^^ gmul_3 d) ^^^
      gmul_11 (gmul_3 a ^^^ b ^^^ c ^^^ gmul_2 d) = c := by
  simp only [gmul_14_xor, gmul_11_xor, gmul_13_xor, gmul_9_xor]
  calc _ = (gmul_14 a ^^^ gmul_11 (gmul_3 a) ^^^ gmul_13 (gmul_2 a) ^^^ gmul_9 a) ^^^
        ((gmul_14 b ^^^ gmul_11 b ^^^ gmul_13 (gmul_3 b) ^^^ gmul_9 (gmul_2 b)) ^^^
        ((gmul_14 (gmul_2 c) ^^^ gmul_11 c ^^^ gmul_13 c ^^^ gmul_9 (gmul_3 c)) ^^^
        (gmul_14 (gmul_3 d) ^^^ gmul_11 (gmul_2 d) ^^^ gmul_13 d ^^^ gmul_9 d))) := by ac_rfl
    _ = c := by
        rw [coefC a ha, coefD b hb, coefA c hc, coefB d hd]
        simp

theorem invCol3 {a b c d : Nat} (ha : a < 256) (hb : b < 256) (hc : c < 256) (hd : d < 256) :
    gmul_11 (gmul_2 a ^^^ gmul_3 b ^^^ c ^^^ d) ^^^
      gmul_13 (a ^^^ gmul_2 b ^^^ gmul_3 c ^^^ d) ^^^
      gmul_9 (a ^^^ b ^^^ gmul_2 c ^^^ gmul_3 d) ^^^
      gmul_14 (gmul_3 a ^^^ b ^^^ c ^^^ gmul_2 d) = d := by
  simp only [gmul_14_xor, gmul_11_xor, gmul_13_xor, gmul_9_xor]
  calc _ = (gmul_14 (gmul_3 a) ^^^ gmul_11 (gmul_2 a) ^^^ gmul_13 a ^^^ gmul_9 a) ^^^
        ((gmul_14 b ^^^ gmul_11 (gmul_3 b) ^^^ gmul_13 (gmul_2 b) ^^^ gmul_9 b) ^^^
        ((gmul_14 c ^^^ gmul_11 c ^^^ gmul_13 (gmul_3 c) ^^^ gmul_9 (gmul_2 c)) ^^^
        (gmul_14 (gmul_2 d) ^^^ gmul_11 d ^^^ gmul_13 d ^^^ gmul_9 (gmul_3 d)))) := by ac_rfl
    _ = d := by
        rw [coefB a ha, coefC b hb, coefD c hc, coefA d hd]
        simp

/-! ## State-level inverse lemmas -/

theorem inv_shift_shift (s : State) : inv_shift_rows (shift_rows s) = s := rfl

theorem shift_inv_shift (s : State) : shift_rows (inv_shift_rows s) = s := rfl

theorem ark_involution (s : State) (k : List Nat) :
    add_round_key (add_round_key s k) k = s := by
  simp only [add_round_key, Nat.xor_cancel_right]

theorem WF_sub_bytes (s : State) : (sub_bytes s).WF :=
  ⟨sboxAt_lt _, sboxAt_lt _, sboxAt_lt _, sboxAt_lt _,
   sboxAt_lt _, sboxAt_lt _, sboxAt_lt _, sboxAt_lt _,
   sboxAt_lt _, sboxAt_lt _, sboxAt_lt _, sboxAt_lt _,
   sboxAt_lt _, sboxAt_lt _, sboxAt_lt _, sboxAt_lt _⟩

theorem WF_shift_rows {s : State} (h : s.WF) : (shift_rows s).WF := by
  obtain ⟨h00, h01, h02, h03, h10, h11, h12, h13, h20, h21, h22, h23, h30, h31, h32, h33⟩ := h
  exact ⟨h00, h01, h02, h03, h11, h12, h13, h10, h22, h23, h20, h21, h33, h30, h31, h32⟩

theorem WF_mix_columns {s : State} (h : s.WF) : (mix_columns s).WF := by
  obtain ⟨h00, h01, h02, h03, h10, h11, h12, h13, h20, h21, h22, h23, h30, h31, h32, h33⟩ := h
  exact
    ⟨xor_lt_256 (xor_lt_256 (xor_lt_256 (gmul_2_lt _) (gmul_3_lt h10)) h20) h30,
     xor_lt_256 (xor_lt_256 (xor_lt_256 (gmul_2_lt _) (gmul_3_lt h11)) h21) h31,
     xor_lt_256 (xor_lt_256 (xor_lt_256 (gmul_2_lt _) (gmul_3_lt h12)) h22) h32,
     xor_lt_256 (xor_lt_256 (xor_lt_256 (gmul_2_lt _) (gmul_3_lt h13)) h23) h33,
     xor_lt_256 (xor_lt_256 (xor_lt_256 h00 (gmul_2_lt _)) (gmul_3_lt h20)) h30,
     xor_lt_256 (xor_lt_256 (xor_lt_256 h01 (gmul_2_lt _)) (gmul_3_lt h21)) h31,
     xor_lt_256 (xor_lt_256 (xor_lt_256 h02 (gmul_2_lt _)) (gmul_3_lt h22)) h32,
     xor_lt_256 (xor_lt_256 (xor_lt_256 h03 (gmul_2_lt _)) (gmul_3_lt h23)) h33,
     xor_lt_256 (xor_lt_256 (xor_lt_256 h00 h10) (gmul_2_lt _)) (gmul_3_lt h30),
     xor_lt_256 (xor_lt_256 (xor_lt_256 h01 h11) (gmul_2_lt _)) (gmul_3_lt h31),
     xor_lt_256 (xor_lt_256 (xor_lt_256 h02 h12) (gmul_2_lt _)) (gmul_3_lt h32),
     xor_lt_256 (xor_lt_256 (xor_lt_256 h03 h13) (gmul_2_lt _)) (gmul_3_lt h33),
     xor_lt_256 (xor_lt_256 (xor_lt_256 (gmul_3_lt h00) h10) h20) (gmul_2_lt _),
     xor_lt_256 (xor_lt_256 (xor_lt_256 (gmul_3_lt h01) h11) h21) (gmul_2_lt _),
     xor_lt_256 (xor_lt_256 (xor_lt_256 (gmul_3_lt h02) h12) h22) (gmul_2_lt _),
     xor_lt_256 (xor_lt_256 (xor_lt_256 (gmul_3_lt h03) h13) h23) (gmul_2_lt _)⟩

theorem WF_add_round_key {s : State} {k : List Nat} (h : s.WF) (hk : bytesLt k) :
    (add_round_key s k).WF := by
  obtain ⟨h00, h01, h02, h03, h10, h11, h12, h13, h20, h21, h22, h23, h30, h31, h32, h33⟩ := h
  exact
    ⟨xor_lt_256 h00 (getD_lt hk 0), xor_lt_256 h01 (getD_lt hk 4),
     xor_lt_256 h02 (getD_lt hk 8), xor_lt_256 h03 (getD_lt hk 12),
     xor_lt_256 h10 (getD_lt hk 1), xor_lt_256 h11 (getD_lt hk 5),
     xor_lt_256 h12 (getD_lt hk 9), xor_lt_256 h13 (getD_lt hk 13),
     xor_lt_256 h20 (getD_lt hk 2), xor_lt_256 h21 (getD_lt hk 6),
     xor_lt_256 h22 (getD_lt hk 10), xor_lt_256 h23 (getD_lt hk 14),
     xor_lt_256 h30 (getD_lt hk 3), xor_lt_256 h31 (getD_lt hk 7),
     xor_lt_256 h32 (getD_lt hk 11), xor_lt_256 h33 (getD_lt hk 15)⟩

theorem inv_sub_sub {s : State} (h : s.WF) : inv_sub_bytes (sub_bytes s) = s := by
  obtain ⟨h00, h01, h02, h03, h10, h11, h12, h13, h20, h21, h22, h23, h30, h31, h32, h33⟩ := h
  simp only [sub_bytes, inv_sub_bytes, invSbox_sbox h00, invSbox_sbox h01, invSbox_sbox h02,
    invSbox_sbox h03, invSbox_sbox h10, invSbox_sbox h11, invSbox_sbox h12, invSbox_sbox h13,
    invSbox_sbox h20, invSbox_sbox h21, invSbox_sbox h22, invSbox_sbox h23, invSbox_sbox h30,
    invSbox_sbox h31, invSbox_sbox h32, invSbox_sbox h33]

theorem inv_mix_mix {s : State} (h : s.WF) : inv_mix_columns (mix_columns s) = s := by
  rcases s with ⟨s00, s01, s02, s03, s10, s11, s12, s13, s20, s21, s22, s23, s30, s31, s32, s33⟩
  obtain ⟨h00, h01, h02, h03, h10, h11, h12, h13, h20, h21, h22, h23, h30, h31, h32, h33⟩ := h
  simp only [mix_columns, inv_mix_columns, State.mk.injEq]
  exact
    ⟨invCol0 h00 h10 h20 h30, invCol0 h01 h11 h21 h31,
     invCol0 h02 h12 h22 h32, invCol0 h03 h13 h23 h33,
     invCol1 h00 h10 h20 h30, invCol1 h01 h11 h21 h31,
     invCol1 h02 h12 h22 h32, invCol1 h03 h13 h23 h33,
     invCol2 h00 h10 h20 h30, invCol2 h01 h11 h21 h31,
     invCol2 h02 h12 h22 h32, invCol2 h03 h13 h23 h33,
     invCol3 h00 h10 h20 h30, invCol3 h01 h11 h21 h31,
     invCol3 h02 h12 h22 h32, invCol3 h03 h13 h23 h33⟩

/-! ## Byte bounds for the expanded key -/

theorem bytesLt_take_drop {l : List Nat} (h : bytesLt l) (m n : Nat) :
    bytesLt ((l.drop m).take n) := fun x hx =>
  h x (List.drop_subset m l (List.take_subset n (l.drop m) hx))

theorem bytesLt_sub_word (w : List Nat) : bytesLt (sub_word w) := by
  intro x hx
  obtain ⟨y, _, rfl⟩ := List.mem_map.mp hx
  exact sboxAt_lt y

theorem bytesLt_rcon : bytesLt RCON := by decide

theorem bytesLt_expandStep {nk i : Nat} {ek : List Nat} (h : bytesLt ek) :
    bytesLt (expandStep nk i ek) := by
  unfold expandStep
  intro x hx
  rcases List.mem_append.mp hx with hin | hin
  · exact h x hin
  · obtain ⟨j, _, rfl⟩ := List.mem_map.mp hin
    have htemp : bytesLt ((ek.drop ((i - 1) * 4)).take 4) := bytesLt_take_drop h _ _
    have htemp2 : bytesLt
        (if i % nk = 0 then
          let t := sub_word (rot_word ((ek.drop ((i - 1) * 4)).take 4))
          t.set 0 (t.getD 0 0 ^^^ RCON.getD (i / nk) 0)
        else if 6 < nk ∧ i % nk = 4 then
          sub_word ((ek.drop ((i - 1) * 4)).take 4)
        else (ek.drop ((i - 1) * 4)).take 4) := by
      split
      · intro x hx
        rcases List.mem_or_eq_of_mem_set hx with hmem | rfl
        · exact bytesLt_sub_word _ x hmem
        · exact xor_lt_256 (getD_lt (bytesLt_sub_word _) 0) (getD_lt bytesLt_rcon _)
      · split
        · exact bytesLt_sub_word _
        · exact htemp
    exact xor_lt_256 (getD_lt (bytesLt_take_drop h _ _) j) (getD_lt htemp2 j)

theorem bytesLt_expandLoop (nk : Nat) :
    ∀ (steps i : Nat) (ek : List Nat), bytesLt ek → bytesLt (expandLoop nk steps i ek) := by
  intro steps
  induction steps with
  | zero => intro i ek h; exact h
  | succ m ih => intro i ek h; exact ih (i + 1) _ (bytesLt_expandStep h)

theorem bytesLt_expand_key {key : List Nat} {key_size : Nat} {ek : List Nat}
    (h : expand_key key key_size = .ok ek) (hkey : bytesLt key) : bytesLt ek := by
  unfold expand_key at h
  split at h
  · exact absurd h (by simp)
  · split at h
    · exact absurd h (by simp)
    · simp only [Except.ok.injEq] at h
      exact h ▸ bytesLt_expandLoop _ _ _ key hkey

theorem bytesLt_init {key : List Nat} {key_size : Nat} {c : AES}
    (h : AES.init key key_size = .ok c) (hkey : bytesLt key) : bytesLt c.expanded_key := by
  unfold AES.init at h
  split at h
  · exact absurd h (by simp)
  · split at h
    · exact absurd h (by simp)
    · cases hek : expand_key key key_size with
      | error e => rw [hek] at h; exact absurd h (by simp)
      | ok ek =>
          rw [hek] at h
          simp only [Except.ok.injEq] at h
          rw [← h]
          exact bytesLt_expand_key hek hkey

theorem bytesLt_get_round_key {ek : List Nat} (h : bytesLt ek) (z : Int) :
    bytesLt (get_round_key ek z) := fun x hx =>
  h x (List.take_subset _ ek (List.drop_subset _ _ hx))

/-! ## Block/state conversion lemmas -/

theorem b2s_s2b (s : State) : bytes_to_state (state_to_bytes s) = .ok s := rfl

theorem list_len16 (B : List Nat) (h : B.length = 16) :
    B = [B.getD 0 0, B.getD 1 0, B.getD 2 0, B.getD 3 0, B.getD 4 0, B.getD 5 0,
         B.getD 6 0, B.getD 7 0, B.getD 8 0, B.getD 9 0, B.getD 10 0, B.getD 11 0,
         B.getD 12 0, B.getD 13 0, B.getD 14 0, B.getD 15 0] := by
  rcases B with _ | ⟨b0, B⟩; · simp at h
  rcases B with _ | ⟨b1, B⟩; · simp at h
  rcases B with _ | ⟨b2, B⟩; · simp at h
  rcases B with _ | ⟨b3, B⟩; · simp at h
  rcases B with _ | ⟨b4, B⟩; · simp at h
  rcases B with _ | ⟨b5, B⟩; · simp at h
  rcases B with _ | ⟨b6, B⟩; · simp at h
  rcases B with _ | ⟨b7, B⟩; · simp at h
  rcases B with _ | ⟨b8, B⟩; · simp at h
  rcases B with _ | ⟨b9, B⟩; · simp at h
  rcases B with _ | ⟨b10, B⟩; · simp at h
  rcases B with _ | ⟨b11, B⟩; · simp at h
  rcases B with _ | ⟨b12, B⟩; · simp at h
  rcases B with _ | ⟨b13, B⟩; · simp at h
  rcases B with _ | ⟨b14, B⟩; · simp at h
  rcases B with _ | ⟨b15, B⟩; · simp at h
  rcases B with _ | ⟨b16, B⟩
  · rfl
  · simp at h

/-- The state read from a 16-byte block B, as built by _bytes_to_state. -/
def stateOf (B : List Nat) : State :=
  ⟨B.getD 0 0, B.getD 4 0, B.getD 8 0, B.getD 12 0,
   B.getD 1 0, B.getD 5 0, B.getD 9 0, B.getD 13 0,
   B.getD 2 0, B.getD 6 0, B.getD 10 0, B.getD 14 0,
   B.getD 3 0, B.getD 7 0, B.getD 11 0, B.getD 15 0⟩

theorem b2s_eq_ok {B : List Nat} (h : B.length = 16) :
    bytes_to_state B = .ok (stateOf B) := by
  unfold bytes_to_state stateOf
  rw [if_pos h]

theorem s2b_stateOf {B : List Nat} (h : B.length = 16) :
    state_to_bytes (stateOf B) = B := by
  rw [state_to_bytes, stateOf]
  exact (list_len16 B h).symm

theorem WF_stateOf {B : List Nat} (h : bytesLt B) : (stateOf B).WF :=
  ⟨getD_lt h 0, getD_lt h 4, getD_lt h 8, getD_lt h 12,
   getD_lt h 1, getD_lt h 5, getD_lt h 9, getD_lt h 13,
   getD_lt h 2, getD_lt h 6, getD_lt h 10, getD_lt h 14,
   getD_lt h 3, getD_lt h 7, getD_lt h 11, getD_lt h 15⟩

/-! ## The round loops invert each other -/

theorem WF_encRound {ek : List Nat} (hek : bytesLt ek) (s : State) (r : Nat) :
    (encRound ek s r).WF :=
  WF_add_round_key (WF_mix_columns (WF_shift_rows (WF_sub_bytes s)))
    (bytesLt_get_round_key hek _)

theorem decRound_encRound {ek : List Nat} (hek : bytesLt ek) (s : State) (r : Nat) :
    decRound ek (shift_rows (sub_bytes (encRound ek s r))) r = shift_rows (sub_bytes s) := by
  unfold decRound encRound
  rw [inv_shift_shift,
    inv_sub_sub (WF_add_round_key (WF_mix_columns (WF_shift_rows (WF_sub_bytes s)))
      (bytesLt_get_round_key hek _)),
    ark_involution, inv_mix_mix (WF_shift_rows (WF_sub_bytes s))]

theorem encDecLoop {ek : List Nat} (hek : bytesLt ek) :
    ∀ (rs : List Nat) (s : State),
      (rs.reverse).foldl (decRound ek)
        (shift_rows (sub_bytes (rs.foldl (encRound ek) s))) = shift_rows (sub_bytes s) := by
  intro rs
  induction rs with
  | nil => intro s; rfl
  | cons r rs ih =>
      intro s
      simp only [List.reverse_cons, List.foldl_append, List.foldl_cons, List.foldl_nil]
      rw [ih (encRound ek s r), decRound_encRound hek s r]

/-! ## Symbolic evaluation of the block operations -/

theorem encrypt_block_eq {c : AES} {B : List Nat} (hB : B.length = 16) :
    encrypt_block c B =
      .ok (state_to_bytes
        (add_round_key
          (shift_rows (sub_bytes
            ((List.range' 1 (c.nr - 1)).foldl (encRound c.expanded_key)
              (add_round_key (stateOf B) (get_round_key c.expanded_key 0)))))
          (get_round_key c.expanded_key c.nr))) := by
  unfold encrypt_block
  rw [b2s_eq_ok hB]

theorem decrypt_block_eq {c : AES} {B : List Nat} (hB : B.length = 16) :
    decrypt_block c B =
      .ok (state_to_bytes
        (add_round_key
          (inv_sub_bytes (inv_shift_rows
            (((List.range' 1 (c.nr - 1)).reverse).foldl (decRound c.expanded_key)
              (add_round_key (stateOf B) (get_round_key c.expanded_key c.nr)))))
          (get_round_key c.expanded_key 0))) := by
  unfold decrypt_block
  rw [b2s_eq_ok hB]

theorem decrypt_block_s2b (c : AES) (t : State) :
    decrypt_block c (state_to_bytes t) =
      .ok (state_to_bytes
        (add_round_key
          (inv_sub_bytes (inv_shift_rows
            (((List.range' 1 (c.nr - 1)).reverse).foldl (decRound c.expanded_key)
              (add_round_key t (get_round_key c.expanded_key c.nr)))))
          (get_round_key c.expanded_key 0))) := rfl

/-! ## The spec-side stage recursion equals the foldl round loops -/

theorem encRounds_eq (ek : List Nat) :
    ∀ (m : Nat) (s : State),
      (List.range' 1 m).foldl (encRound ek) s = specEncRounds ek m s := by
  intro m
  induction m with
  | zero => intro s; rfl
  | succ m ih =>
      intro s
      rw [List.range'_concat, List.foldl_append, List.foldl_cons, List.foldl_nil, ih]
      have h1 : 1 + 1 * m = m + 1 := by omega
      rw [h1]
      rfl

theorem decRounds_eq (ek : List Nat) :
    ∀ (m : Nat) (s : State),
      ((List.range' 1 m).reverse).foldl (decRound ek) s = specDecRounds ek m s := by
  intro m
  induction m with
  | zero => intro s; rfl
  | succ m ih =>
      intro s
      rw [List.range'_concat, List.reverse_append, List.reverse_singleton,
        List.singleton_append, List.foldl_cons, ih]
      have h1 : 1 + 1 * m = m + 1 := by omega
      rw [h1]
      rfl

/-! ## FIPS-197 reference data (appendix B vector) -/

/-- The FIPS-197 example key 2b7e151628aed2a6abf7158809cf4f3c. -/
def fipsKey : List Nat :=
  [0x2b, 0x7e, 0x15, 0x16, 0x28, 0xae, 0xd2, 0xa6,
   0xab, 0xf7, 0x15, 0x88, 0x09, 0xcf, 0x4f, 0x3c]

/-- The FIPS-197 example plaintext 3243f6a8885a308d313198a2e0370734. -/
def fipsPlain : List Nat :=
  [0x32, 0x43, 0xf6, 0xa8, 0x88, 0x5a, 0x30, 0x8d,
   0x31, 0x31, 0x98, 0xa2, 0xe0, 0x37, 0x07, 0x34]

/-- The FIPS-197 example ciphertext 3925841d02dc09fbdc118597196a0b32. -/
def fipsCT : List Nat :=
  [0x39, 0x25, 0x84, 0x1d, 0x02, 0xdc, 0x09, 0xfb,
   0xdc, 0x11, 0x85, 0x97, 0x19, 0x6a, 0x0b, 0x32]

/-- The cipher built from the FIPS key (128-bit, 10 rounds, expanded key). -/
def fipsCipher : AES := ⟨128, 10, expandLoop 4 40 4 fipsKey⟩

theorem fipsCipher_init : AES.init fipsKey 128 = .ok fipsCipher := rfl

/-! ## Claim theorems -/

/-- C1: for every valid cipher (a key of length 16, 24 or 32 bytes matching a
key size of 128, 192 or 256 bits, as accepted by the constructor) and every
16-byte block B, decrypting the encryption of B returns B. -/
theorem block_roundtrip (key : List Nat) (key_size : Nat) (c : AES)
    (hc : AES.init key key_size = .ok c) (hkey : bytesLt key)
    (B : List Nat) (hB : B.length = 16) (hBb : bytesLt B) :
    (encrypt_block c B).bind (decrypt_block c) = .ok B := by
  have hek : bytesLt c.expanded_key := bytesLt_init hc hkey
  rw [encrypt_block_eq hB]
  simp only [Except.bind]
  rw [decrypt_block_s2b, ark_involution, encDecLoop hek, inv_shift_shift,
    inv_sub_sub (WF_add_round_key (WF_stateOf hBb) (bytesLt_get_round_key hek 0)),
    ark_involution, s2b_stateOf hB]

theorem block_roundtrip_witness :
    (encrypt_block fipsCipher fipsPlain).bind (decrypt_block fipsCipher) = .ok fipsPlain :=
  block_roundtrip fipsKey 128 fipsCipher fipsCipher_init (by decide)
    fipsPlain (by decide) (by decide)

/-- C2: with the 128-bit FIPS-197 key 2b7e151628aed2a6abf7158809cf4f3c,
encrypt_block maps plaintext 3243f6a8885a308d313198a2e0370734 to ciphertext
3925841d02dc09fbdc118597196a0b32, and decrypt_block maps that ciphertext back
to the plaintext. -/
theorem fips_known_answer :
    (AES.init fipsKey 128).bind (fun c => encrypt_block c fipsPlain) = .ok fipsCT ∧
    (AES.init fipsKey 128).bind (fun c => decrypt_block c fipsCT) = .ok fipsPlain :=
  ⟨rfl, rfl⟩

/-- C3: for every valid cipher and 16-byte input, encrypt_block computes
exactly the spec's stage sequence (AddRoundKey(RK 0); rounds 1..Nr-1 of
SubBytes, ShiftRows, MixColumns, AddRoundKey; final round without MixColumns),
and decrypt_block computes the exact mirror sequence (AddRoundKey(RK Nr);
rounds Nr-1 down to 1 of InvShiftRows, InvSubBytes, AddRoundKey,
InvMixColumns; final InvShiftRows, InvSubBytes, AddRoundKey(RK 0)), the spec
sequence being transcribed independently as specEncryptStages /
specDecryptStages. -/
theorem stage_sequence_refinement (key : List Nat) (key_size : Nat) (c : AES)
    (_hc : AES.init key key_size = .ok c) (B : List Nat) (hB : B.length = 16) :
    encrypt_block c B =
      .ok (state_to_bytes (specEncryptStages c.expanded_key c.nr (stateOf B))) ∧
    decrypt_block c B =
      .ok (state_to_bytes (specDecryptStages c.expanded_key c.nr (stateOf B))) := by
  constructor
  · rw [encrypt_block_eq hB]
    unfold specEncryptStages
    rw [encRounds_eq]
  · rw [decrypt_block_eq hB]
    unfold specDecryptStages
    rw [decRounds_eq]

theorem stage_sequence_refinement_witness :
    encrypt_block fipsCipher fipsPlain =
      .ok (state_to_bytes (specEncryptStages fipsCipher.expanded_key fipsCipher.nr
        (stateOf fipsPlain))) ∧
    decrypt_block fipsCipher fipsPlain =
      .ok (state_to_bytes (specDecryptStages fipsCipher.expanded_key fipsCipher.nr
        (stateOf fipsPlain))) :=
  stage_sequence_refinement fipsKey 128 fipsCipher fipsCipher_init fipsPlain (by decide)

/-- C4: for every byte value x in 0..255, INV_SBOX[SBOX[x]] = x: the two
256-entry tables are mutually inverse byte permutations. -/
theorem sbox_tables_inverse : ∀ x < 256, INV_SBOX.getD (SBOX.getD x 0) 0 = x := by decide

theorem sbox_tables_inverse_witness : INV_SBOX.getD (SBOX.getD 0x53 0) 0 = 0x53 :=
  sbox_tables_inverse 0x53 (by norm_num)

/-- C5: for every byte value x in 0..255, each specialized Galois-field
multiplier agrees with the general multiply at its constant:
gmul_2 x = gmul x 2, gmul_3 x = gmul x 3, gmul_9 x = gmul x 9,
gmul_11 x = gmul x 11, gmul_13 x = gmul x 13, gmul_14 x = gmul x 14. -/
theorem gmul_specialized_eq : ∀ x < 256,
    gmul_2 x = gmul x 2 ∧ gmul_3 x = gmul x 3 ∧ gmul_9 x = gmul x 9 ∧
    gmul_11 x = gmul x 11 ∧ gmul_13 x = gmul x 13 ∧ gmul_14 x = gmul x 14 := by decide

theorem gmul_specialized_eq_witness :
    gmul_2 0x57 = gmul 0x57 2 ∧ gmul_3 0x57 = gmul 0x57 3 ∧ gmul_9 0x57 = gmul 0x57 9 ∧
    gmul_11 0x57 = gmul 0x57 11 ∧ gmul_13 0x57 = gmul 0x57 13 ∧ gmul_14 0x57 = gmul 0x57 14 :=
  gmul_specialized_eq 0x57 (by norm_num)

/-- C6: for every 4x4 byte state S and every 16-byte round key K,
InvShiftRows(ShiftRows(S)) = S, InvMixColumns(MixColumns(S)) = S, and
AddRoundKey(AddRoundKey(S, K), K) = S. -/
theorem transform_inverses (s : State) (k : List Nat) (hs : s.WF) (_hk : k.length = 16) :
    inv_shift_rows (shift_rows s) = s ∧ inv_mix_columns (mix_columns s) = s ∧
    add_round_key (add_round_key s k) k = s :=
  ⟨inv_shift_shift s, inv_mix_mix hs, ark_involution s k⟩

theorem transform_inverses_witness :
    inv_shift_rows (shift_rows (stateOf fipsPlain)) = stateOf fipsPlain ∧
    inv_mix_columns (mix_columns (stateOf fipsPlain)) = stateOf fipsPlain ∧
    add_round_key (add_round_key (stateOf fipsPlain) fipsKey) fipsKey = stateOf fipsPlain :=
  transform_inverses (stateOf fipsPlain) fipsKey (by decide) (by decide)

/-! ## Padding lemmas and claims C7, C8 -/

theorem getD_replicate {n a i : Nat} (h : i < n) : (List.replicate n a).getD i 0 = a := by
  rw [List.getD_eq_getElem _ _ (by simpa using h)]
  simp

/-- C7: for every byte string, pad appends exactly n = 16 - (len mod 16) bytes
each of value n (a full 16-byte block when the length is already a multiple of
16, since then n = 16), and unpad undoes pad exactly. -/
theorem pad_unpad_roundtrip (data : List Nat) :
    (pad data).take data.length = data ∧
    (pad data).drop data.length =
      List.replicate (16 - data.length % 16) (16 - data.length % 16) ∧
    unpad (pad data) = .ok data := by
  have hmod : data.length % 16 < 16 := Nat.mod_lt _ (by norm_num)
  set n := 16 - data.length % 16 with hn
  have hn1 : 1 ≤ n := by omega
  have hpad : pad data = data ++ List.replicate n n := rfl
  refine ⟨?_, ?_, ?_⟩
  · rw [hpad, List.take_left]
  · rw [hpad, List.drop_left]
  · rw [hpad]
    have hlen : (data ++ List.replicate n n).length = data.length + n := by simp
    have hlast : (data ++ List.replicate n n).getD (data.length + n - 1) 0 = n := by
      rw [List.getD_append_right _ _ _ _ (by omega)]
      exact getD_replicate (by omega)
    have hall : ((List.range n).all
        (fun i => (data ++ List.replicate n n).getD (data.length + n - 1 - i) 0 == n)) = true := by
      rw [List.all_eq_true]
      intro i hi
      have hi1 : i < n := List.mem_range.mp hi
      rw [List.getD_append_right _ _ _ _ (by omega), getD_replicate (by omega)]
      simp
    unfold unpad
    rw [if_neg (by rw [hlen]; omega)]
    simp only [hlen, hlast]
    rw [if_neg (by omega), if_neg (by omega), if_pos hall]
    have h2 : data.length + n - n = data.length := by omega
    rw [h2, List.take_left]

theorem pad_unpad_roundtrip_witness : unpad (pad [1, 2, 3]) = .ok [1, 2, 3] :=
  (pad_unpad_roundtrip [1, 2, 3]).2.2

/-- C8: unpad fails with EmptyInputUnpad exactly on the empty input; otherwise,
reading the last byte as n, it fails with InvalidPadding precisely when n = 0,
n > 16, len(data) < n, or one of the last n bytes differs from n; in all
remaining cases it returns data with the last n bytes stripped. -/
theorem unpad_case_analysis (data : List Nat) :
    (data = [] → unpad data = .error .emptyInputUnpad) ∧
    (data ≠ [] → ∀ n, n = data.getD (data.length - 1) 0 →
      ((unpad data = .error .invalidPadding ↔
        (n = 0 ∨ 16 < n ∨ data.length < n ∨
          ∃ i < n, data.getD (data.length - 1 - i) 0 ≠ n)) ∧
       ((n ≠ 0 ∧ n ≤ 16 ∧ n ≤ data.length ∧
          ∀ i < n, data.getD (data.length - 1 - i) 0 = n) →
        unpad data = .ok (data.take (data.length - n))))) := by
  constructor
  · intro h; subst h; rfl
  · intro hne n hn
    have hlen0 : ¬data.length = 0 := fun h => hne (List.length_eq_zero.mp h)
    unfold unpad
    rw [if_neg hlen0]
    simp only [← hn]
    by_cases h1 : 16 < n ∨ n = 0
    · rw [if_pos h1]
      refine ⟨⟨fun _ => ?_, fun _ => rfl⟩, fun hcond => ?_⟩
      · rcases h1 with h1 | h1
        · exact Or.inr (Or.inl h1)
        · exact Or.inl h1
      · obtain ⟨hc1, hc2, _, _⟩ := hcond
        rcases h1 with h1 | h1 <;> omega
    · rw [if_neg h1]
      push_neg at h1
      by_cases h2 : data.length < n
      · rw [if_pos h2]
        refine ⟨⟨fun _ => Or.inr (Or.inr (Or.inl h2)), fun _ => rfl⟩, fun hcond => ?_⟩
        obtain ⟨_, _, hc3, _⟩ := hcond
        omega
      · rw [if_neg h2]
        by_cases h3 :
            ((List.range n).all (fun i => data.getD (data.length - 1 - i) 0 == n)) = true
        · rw [if_pos h3]
          have hforall : ∀ i < n, data.getD (data.length - 1 - i) 0 = n := by
            intro i hi
            have h4 := List.all_eq_true.mp h3 i (List.mem_range.mpr hi)
            simpa using h4
          refine ⟨⟨fun hok => absurd hok (by simp), fun hcond => ?_⟩, fun _ => rfl⟩
          rcases hcond with hc | hc | hc | ⟨i, hi, hneq⟩
          · omega
          · omega
          · omega
          · exact absurd (hforall i hi) hneq
        · rw [if_neg h3]
          have hex : ∃ i < n, data.getD (data.length - 1 - i) 0 ≠ n := by
            by_contra hcon
            push_neg at hcon
            apply h3
            rw [List.all_eq_true]
            intro i hi
            simpa using hcon i (List.mem_range.mp hi)
          refine ⟨⟨fun _ => Or.inr (Or.inr (Or.inr hex)), fun _ => rfl⟩, fun hcond => ?_⟩
          obtain ⟨i, hi, hneq⟩ := hex
          exact absurd (hcond.2.2.2 i hi) hneq

theorem unpad_case_analysis_witness :
    unpad [1, 2, 2] = .ok ([1, 2, 2].take ([1, 2, 2].length - 2)) :=
  ((unpad_case_analysis [1, 2, 2]).2 (by decide) 2 (by decide)).2 (by decide)

/-! ## Claim C9 -/

/-- C9: for every valid cipher, encrypt_block and decrypt_block succeed with a
16-byte result exactly on 16-byte inputs, and fail with InvalidBlockLength on
every input of any other length. -/
theorem block_length_contract (key : List Nat) (key_size : Nat) (c : AES)
    (_hc : AES.init key key_size = .ok c) (input : List Nat) :
    (input.length = 16 →
      (∃ ct, encrypt_block c input = .ok ct ∧ ct.length = 16) ∧
      (∃ pt, decrypt_block c input = .ok pt ∧ pt.length = 16)) ∧
    (input.length ≠ 16 →
      encrypt_block c input = .error .invalidBlockLength ∧
      decrypt_block c input = .error .invalidBlockLength) := by
  constructor
  · intro h16
    exact ⟨⟨_, encrypt_block_eq h16, rfl⟩, ⟨_, decrypt_block_eq h16, rfl⟩⟩
  · intro hne
    have hbs : bytes_to_state input = .error .invalidBlockLength := by
      unfold bytes_to_state
      rw [if_neg hne]
    constructor
    · unfold encrypt_block
      rw [hbs]
    · unfold decrypt_block
      rw [hbs]

theorem block_length_contract_witness :
    encrypt_block fipsCipher (List.replicate 10 0) = .error .invalidBlockLength ∧
    decrypt_block fipsCipher (List.replicate 10 0) = .error .invalidBlockLength :=
  (block_length_contract fipsKey 128 fipsCipher fipsCipher_init
    (List.replicate 10 0)).2 (by decide)

/-! ## Claim C10 -/

/-- C10 (amended): get_round_key performs no bounds check. Whenever
round_num * 16 + 16 > len(expanded_key) it silently returns fewer than 16
bytes (empty as soon as round_num * 16 >= len). For nonnegative round_num the
result has 16 bytes exactly when round_num * 16 + 16 <= len (for a well-formed
expanded key of length 16*(Nr+1), exactly when round_num <= Nr); negative
round_num values, however, can still produce 16-byte slices through Python's
negative-index wraparound. -/
theorem grk_no_bounds_check (ek : List Nat) (r : Int) :
    ((ek.length : Int) < r * 16 + 16 →
      (get_round_key ek r).length < 16 ∧
      ((ek.length : Int) ≤ r * 16 → get_round_key ek r = [])) ∧
    (0 ≤ r → ((get_round_key ek r).length = 16 ↔ r * 16 + 16 ≤ (ek.length : Int))) := by
  unfold get_round_key pySlice
  constructor
  · intro hlt
    have hr : 0 ≤ r := by omega
    rw [if_neg (by omega), if_neg (by omega)]
    constructor
    · simp only [List.length_drop, List.length_take, min_def]
      split_ifs <;> omega
    · intro hle
      apply List.drop_eq_nil_of_le
      simp only [List.length_take, min_def]
      split_ifs <;> omega
  · intro hr
    rw [if_neg (by omega), if_neg (by omega)]
    simp only [List.length_drop, List.length_take, min_def]
    split_ifs <;> omega

theorem grk_no_bounds_check_witness :
    (get_round_key (List.replicate 32 0) 2).length < 16 ∧
    get_round_key (List.replicate 32 0) 2 = [] ∧
    (get_round_key (List.replicate 32 0) 1).length = 16 := by
  have h1 := (grk_no_bounds_check (List.replicate 32 0) 2).1 (by norm_num)
  have h2 := (grk_no_bounds_check (List.replicate 32 0) 1).2 (by norm_num)
  exact ⟨h1.1, h1.2 (by norm_num), h2.mpr (by norm_num)⟩

/-- C10 counterexample: on the FIPS expanded key (176 bytes, Nr = 10),
round_num = -2 still yields a 16-byte slice through Python negative indexing,
so a 16-byte result does not imply 0 <= round_num <= Nr. -/
theorem grk_counterexample :
    (get_round_key fipsCipher.expanded_key (-2)).length = 16 ∧
    fipsCipher.expanded_key.length = 16 * (fipsCipher.nr + 1) ∧
    ¬(0 ≤ (-2 : Int) ∧ (-2 : Int) ≤ (fipsCipher.nr : Int)) := by
  refine ⟨?_, ?_, by norm_num⟩ <;> rfl

end Aesfs
